import Mathlib

/-!
Verification of the notebook cell-mutation engine and its tool-boundary layer.

The data model (notebooks as ordered cell sequences) and the boundary wrappers
are embedded from `src/jupyter_editor/server.py`.  The `operations` module is
not part of the sources; the mutation-engine functions are modelled from the
specification (each such definition's doc comment says so).
-/

/-- Cell type: one of code, markdown, raw (spec section 3). -/
inductive CellType where
  | code
  | markdown
  | raw
deriving DecidableEq, Repr

/-- A response value in a tool-result mapping (a Python dict value). -/
inductive RVal where
  | bool : Bool → RVal
  | nat : Nat → RVal
  | str : String → RVal
  | chars : List Char → RVal
  | pathResults : List (String × Bool) → RVal
deriving DecidableEq, Repr

/-- One notebook cell: type, source text, metadata, outputs, execution count
(spec section 3).  Source text is modelled as a character list. -/
structure Cell where
  cellType : CellType
  source : List Char
  metadata : List (String × RVal) := []
  outputs : List (List Char) := []
  executionCount : Option Nat := none
deriving DecidableEq, Repr

/-- A notebook document: ordered cells plus metadata (spec section 3). -/
structure Notebook where
  cells : List Cell
  metadata : List (String × RVal) := []
deriving DecidableEq, Repr

/-- Default cell used with `List.getD` at positions already proven in range. -/
def defaultCell : Cell := { cellType := CellType.code, source := [] }

/-- Error kinds surfaced by the mutation engine (spec section 7). -/
inductive ValKind where
  | strNotFound
  | multipleMatches
  | badCellType
  | reorderInvalid
  | unknownOperation
deriving DecidableEq, Repr

/-- Operation-level failures: file missing, index out of range (carrying the
offending index), or semantically invalid input (spec section 7). -/
inductive OpErr where
  | notFound : OpErr
  | indexErr : Int → OpErr
  | valueErr : ValKind → OpErr
deriving DecidableEq, Repr

/-- Modelled from the spec: index resolution for an N-cell document
(`operations` module, not in the sources).  Valid range is `-N <= i <= N-1`;
a negative `i` addresses cell `N + i` (spec section 4.1). -/
def resolveIndex (n : Nat) (i : Int) : Option Nat :=
  if 0 ≤ i ∧ i < (n : Int) then some i.toNat
  else if -(n : Int) ≤ i ∧ i < 0 then some ((n : Int) + i).toNat
  else none

/-- Modelled from the spec: `operations.get_cell_content` (not in the
sources); returns the addressed cell's source, or an index error naming the
offending index (spec section 4.1). -/
def get_cell_content (nb : Notebook) (i : Int) : Except OpErr (List Char) :=
  match resolveIndex nb.cells.length i with
  | none => .error (.indexErr i)
  | some j => .ok (nb.cells.getD j defaultCell).source

/-- Modelled from the spec: `operations.replace_cell_content` (not in the
sources); overwrites `source` only, leaving type/metadata/outputs untouched
(spec section 4.1). -/
def replace_cell_content (nb : Notebook) (i : Int) (newContent : List Char) :
    Except OpErr Notebook :=
  match resolveIndex nb.cells.length i with
  | none => .error (.indexErr i)
  | some j =>
    let cell := nb.cells.getD j defaultCell
    .ok { nb with cells := nb.cells.set j { cell with source := newContent } }

/-- Modelled from the spec: `operations.delete_cell` (not in the sources);
removes the addressed cell, later cells shift down by one (spec section 4.1). -/
def delete_cell (nb : Notebook) (i : Int) : Except OpErr Notebook :=
  match resolveIndex nb.cells.length i with
  | none => .error (.indexErr i)
  | some j => .ok { nb with cells := nb.cells.eraseIdx j }

-- Basic resolution facts

theorem resolveIndex_isSome_iff (n : Nat) (i : Int) :
    (resolveIndex n i).isSome ↔ (-(n : Int) ≤ i ∧ i ≤ (n : Int) - 1) := by
  unfold resolveIndex
  by_cases h1 : 0 ≤ i ∧ i < (n : Int)
  · simp [h1]; omega
  · by_cases h2 : -(n : Int) ≤ i ∧ i < 0
    · simp [h1, h2]; omega
    · simp [h1, h2]; omega

theorem resolveIndex_of_valid (n : Nat) (i : Int)
    (h1 : -(n : Int) ≤ i) (h2 : i ≤ (n : Int) - 1) :
    resolveIndex n i = some (if i < 0 then ((n : Int) + i).toNat else i.toNat) := by
  unfold resolveIndex
  by_cases hneg : i < 0
  · have hn : ¬ (0 ≤ i ∧ i < (n : Int)) := by omega
    simp [hn, hneg, h1]
  · have hp : 0 ≤ i ∧ i < (n : Int) := by omega
    simp [hp, hneg]

-- Scanning for substring occurrences (the engine's `str.count`-style
-- left-to-right non-overlapping scan).

/-- Does `p` start the list `s`? -/
def startsWith : List Char → List Char → Bool
  | [], _ => true
  | _ :: _, [] => false
  | p :: ps, c :: t => p = c && startsWith ps t

theorem startsWith_exists {p s : List Char} (h : startsWith p s = true) :
    ∃ t, s = p ++ t := by
  induction p generalizing s with
  | nil => exact ⟨s, rfl⟩
  | cons a ps ih =>
    cases s with
    | nil => simp [startsWith] at h
    | cons c t =>
      simp only [startsWith, Bool.and_eq_true, decide_eq_true_eq] at h
      obtain ⟨rfl, h2⟩ := h
      obtain ⟨u, rfl⟩ := ih h2
      exact ⟨u, rfl⟩

theorem startsWith_append (p t : List Char) : startsWith p (p ++ t) = true := by
  induction p with
  | nil => rfl
  | cons a ps ih => simp [startsWith, ih]

/-- First occurrence of `pat` in `s`: returns the part before the match and
the part after it.  The scan is left to right. -/
def splitFirst (pat : List Char) : List Char → Option (List Char × List Char)
  | [] =>
    if startsWith pat [] then some ([], ([] : List Char).drop pat.length) else none
  | c :: t =>
    if startsWith pat (c :: t) then some ([], (c :: t).drop pat.length)
    else (splitFirst pat t).map fun pq => (c :: pq.1, pq.2)

theorem splitFirst_sound {pat s p q : List Char}
    (h : splitFirst pat s = some (p, q)) : s = p ++ pat ++ q := by
  induction s generalizing p q with
  | nil =>
    rw [splitFirst] at h
    by_cases hs : startsWith pat [] = true
    · obtain ⟨t, ht⟩ := startsWith_exists hs
      simp [hs] at h
      obtain ⟨rfl, rfl⟩ := h
      cases pat with
      | nil => rfl
      | cons a l => simp at ht
    · simp [hs] at h
  | cons c t ih =>
    rw [splitFirst] at h
    by_cases hs : startsWith pat (c :: t) = true
    · obtain ⟨u, hu⟩ := startsWith_exists hs
      simp [hs] at h
      obtain ⟨rfl, rfl⟩ := h
      rw [hu, List.nil_append, List.drop_left]
    · simp only [if_neg hs, Option.map_eq_some'] at h
      obtain ⟨⟨p', q'⟩, hrec, hmk⟩ := h
      injection hmk with h1 h2
      subst h1
      subst h2
      have ht := ih hrec
      rw [ht]
      simp

theorem splitFirst_none {pat s : List Char} (h : splitFirst pat s = none) :
    ∀ p q, s ≠ p ++ pat ++ q := by
  induction s with
  | nil =>
    intro p q hc
    rw [splitFirst] at h
    by_cases hs : startsWith pat [] = true
    · simp [hs] at h
    · cases p with
      | nil =>
        cases pat with
        | nil => simp [startsWith] at hs
        | cons a l => simp at hc
      | cons a l => simp at hc
  | cons c t ih =>
    intro p q hc
    rw [splitFirst] at h
    by_cases hs : startsWith pat (c :: t) = true
    · simp [hs] at h
    · simp [hs] at h
      cases p with
      | nil =>
        simp at hc
        have : startsWith pat (c :: t) = true := by
          rw [hc, ← List.nil_append (pat ++ q), ← List.append_assoc]
          simp
          exact startsWith_append pat q
        exact hs this
      | cons a p' =>
        simp at hc
        obtain ⟨rfl, hc2⟩ := hc
        exact ih h p' q (by rw [hc2, List.append_assoc])

/-- Length of the remainder strictly drops when a nonempty pattern matches. -/
theorem splitFirst_len {pat s p q : List Char} (hp : pat ≠ [])
    (h : splitFirst pat s = some (p, q)) : q.length < s.length := by
  have hs := splitFirst_sound h
  have : s.length = p.length + pat.length + q.length := by
    rw [hs]; simp [List.length_append]; omega
  have hl : 1 ≤ pat.length := by
    cases pat with
    | nil => exact absurd rfl hp
    | cons a l => simp
  omega

/-- Fuel-driven occurrence counter: each step consumes the first occurrence
and continues on the remainder.  With fuel above the text length this
computes the number of non-overlapping occurrences. -/
def countOccFuel (pat : List Char) : Nat → List Char → Nat
  | 0, _ => 0
  | fuel + 1, s =>
    match splitFirst pat s with
    | none => 0
    | some pq => 1 + countOccFuel pat fuel pq.2

/-- Number of non-overlapping occurrences of `pat` in `s`, counted by a
left-to-right scan; an empty pattern occurs `length + 1` times, as in
Python's `str.count`. -/
def countOcc (pat s : List Char) : Nat :=
  if pat = [] then s.length + 1 else countOccFuel pat (s.length + 1) s

/-- The fuel value is irrelevant once it exceeds the text length. -/
theorem countOccFuel_congr {pat : List Char} (hp : pat ≠ []) :
    ∀ (f₁ f₂ : Nat) (s : List Char), s.length < f₁ → s.length < f₂ →
      countOccFuel pat f₁ s = countOccFuel pat f₂ s := by
  intro f₁
  induction f₁ with
  | zero => intro f₂ s h1 _; omega
  | succ f ih =>
    intro f₂ s h1 h2
    cases f₂ with
    | zero => omega
    | succ g =>
      simp only [countOccFuel]
      cases hsp : splitFirst pat s with
      | none => rfl
      | some pq =>
        have hlt : pq.2.length < s.length := splitFirst_len hp (by rw [hsp])
        have hih := ih g pq.2 (by omega) (by omega)
        simp only [hih]

theorem countOcc_eq_zero {pat s : List Char} (hp : pat ≠ [])
    (h : splitFirst pat s = none) : countOcc pat s = 0 := by
  rw [countOcc, if_neg hp]
  simp only [countOccFuel, h]

theorem countOcc_eq_succ {pat s p q : List Char} (hp : pat ≠ [])
    (h : splitFirst pat s = some (p, q)) :
    countOcc pat s = 1 + countOcc pat q := by
  rw [countOcc, countOcc, if_neg hp, if_neg hp]
  simp only [countOccFuel, h]
  congr 1
  exact countOccFuel_congr hp s.length (q.length + 1) q
    (splitFirst_len hp h) (by omega)

-- Mutation-engine operations (modelled from the spec; the `operations`
-- module is not among the sources).

/-- Modelled from the spec: `operations.str_replace_in_cell` (not in the
sources).  `old` must occur exactly once in the cell's source; zero
occurrences and multiple occurrences fail with distinct ValueError kinds
(spec section 4.1). -/
def str_replace_in_cell (nb : Notebook) (i : Int) (old new : List Char) :
    Except OpErr Notebook :=
  match resolveIndex nb.cells.length i with
  | none => .error (.indexErr i)
  | some j =>
    let cell := nb.cells.getD j defaultCell
    let c := countOcc old cell.source
    if c = 0 then .error (.valueErr .strNotFound)
    else if 1 < c then .error (.valueErr .multipleMatches)
    else
      match splitFirst old cell.source with
      | none => .error (.valueErr .strNotFound)
      | some pq =>
        .ok { nb with
              cells := nb.cells.set j { cell with source := pq.1 ++ new ++ pq.2 } }

/-- Parse a cell-type string; anything outside code/markdown/raw is invalid
(spec section 4.1). -/
def parseCellType (s : String) : Option CellType :=
  if s = "code" then some .code
  else if s = "markdown" then some .markdown
  else if s = "raw" then some .raw
  else none

/-- Insert an element at a position, clamping to the end (`list.insert`
semantics: inserting at `i = N` appends). -/
def insertAt (j : Nat) (c : Cell) (l : List Cell) : List Cell :=
  match j, l with
  | 0, l => c :: l
  | _ + 1, [] => [c]
  | k + 1, x :: t => x :: insertAt k c t

/-- Insertion position for index `i` on an `n`-cell document: a negative
index counts from the end and clamps at 0, a nonnegative index clamps at
`n` (appending) — spec section 4.1. -/
def insertPos (n : Nat) (i : Int) : Nat :=
  if i < 0 then (max 0 ((n : Int) + i)).toNat else min i.toNat n

/-- Modelled from the spec: `operations.insert_cell` (not in the sources).
The new cell becomes the element at the given position; an invalid
`cell_type` fails with a ValueError kind (spec section 4.1). -/
def insert_cell (nb : Notebook) (i : Int) (content : List Char)
    (cellType : String) : Except OpErr Notebook :=
  match parseCellType cellType with
  | none => .error (.valueErr .badCellType)
  | some t =>
    .ok { nb with
          cells := insertAt (insertPos nb.cells.length i)
                     { cellType := t, source := content } nb.cells }

/-- One entry of an `insert_cells_batch` call: index, content, cell type. -/
structure Insertion where
  cellIndex : Int
  content : List Char
  cellType : String
deriving DecidableEq, Repr

/-- Modelled from the spec: `operations.insert_cells_batch` (not in the
sources).  Insertions are applied sequentially in the order given; each
index is interpreted against the document state after all prior insertions
of the batch (spec section 4.3). -/
def insert_cells_batch (nb : Notebook) (ins : List Insertion) :
    Except OpErr Notebook :=
  match ins with
  | [] => .ok nb
  | x :: rest =>
    match insert_cell nb x.cellIndex x.content x.cellType with
    | .error e => .error e
    | .ok nb' => insert_cells_batch nb' rest

/-- Modelled from the spec: `operations.delete_cells_batch` (not in the
sources).  All indices are validated up front against the pre-deletion
document; deletions are then processed in descending order to avoid index
drift (spec section 4.3). -/
def delete_cells_batch (nb : Notebook) (indices : List Int) :
    Except OpErr Notebook :=
  match indices.find? (fun i => (resolveIndex nb.cells.length i).isNone) with
  | some i => .error (.indexErr i)
  | none =>
    let js := indices.filterMap (resolveIndex nb.cells.length)
    .ok { nb with
          cells := (js.insertionSort (· ≥ ·)).foldl List.eraseIdx nb.cells }

/-- The document stored on disk after a `delete_cells_batch` call: on any
failure nothing is persisted, so the original remains (spec section 2). -/
def deleteBatchStored (nb : Notebook) (indices : List Int) : Notebook :=
  match delete_cells_batch nb indices with
  | .error _ => nb
  | .ok nb' => nb'

/-- One entry of a `replace_cells_batch` call: index and new content. -/
structure Replacement where
  cellIndex : Int
  content : List Char
deriving DecidableEq, Repr

/-- Modelled from the spec: `operations.replace_cells_batch` (not in the
sources).  All indices are resolved against the original document; any
out-of-range index aborts the whole batch before any mutation
(spec section 4.3). -/
def replace_cells_batch (nb : Notebook) (reps : List Replacement) :
    Except OpErr Notebook :=
  match reps.find? (fun r => (resolveIndex nb.cells.length r.cellIndex).isNone) with
  | some r => .error (.indexErr r.cellIndex)
  | none =>
    .ok { nb with
          cells := reps.foldl
            (fun cs r =>
              match resolveIndex nb.cells.length r.cellIndex with
              | none => cs
              | some j =>
                cs.set j { cs.getD j defaultCell with source := r.content })
            nb.cells }

/-- Modelled from the spec: `operations.reorder_cells` (not in the sources).
`new_order` must contain every valid index exactly once; position `k` of the
result holds the cell previously at `new_order[k]`; any missing, duplicate
or out-of-range index fails with a ValueError kind (spec section 4.3). -/
def reorder_cells (nb : Notebook) (newOrder : List Int) : Except OpErr Notebook :=
  let n := nb.cells.length
  if newOrder.length = n ∧ (∀ i ∈ newOrder, 0 ≤ i ∧ i < (n : Int)) ∧ newOrder.Nodup
  then .ok { nb with cells := newOrder.map (fun i => nb.cells.getD i.toNat defaultCell) }
  else .error (.valueErr .reorderInvalid)

/-- The document stored on disk after a `reorder_cells` call: on failure
nothing is persisted (spec sections 2 and 8). -/
def reorderStored (nb : Notebook) (newOrder : List Int) : Notebook :=
  match reorder_cells nb newOrder with
  | .error _ => nb
  | .ok nb' => nb'

/-- Modelled from the spec: the markdown separator cell that `merge` puts
before each input's block, naming the source file (spec section 4.4). -/
def separatorCell (path : String) : Cell :=
  { cellType := .markdown, source := '#' :: ' ' :: path.data }

/-- Modelled from the spec: `operations.merge_notebooks` (not in the
sources), applied to the already-loaded inputs (path and document pairs).
Cells are concatenated in listed order; metadata is copied from the first
input; with separators on, one markdown cell naming the source file goes
before each input's block, including the first (spec section 4.4). -/
def merge_notebooks (inputs : List (String × Notebook)) (addSeparators : Bool) :
    Notebook :=
  { metadata := ((inputs.head?).map (fun pn => pn.2.metadata)).getD []
    cells :=
      if addSeparators then
        (inputs.map (fun pn => separatorCell pn.1 :: pn.2.cells)).flatten
      else
        (inputs.map (fun pn => pn.2.cells)).flatten }

/-- Clear outputs and execution count of every code cell; other cells are
untouched (spec section 4.4). -/
def clearCellOutputs (c : Cell) : Cell :=
  match c.cellType with
  | .code => { c with outputs := [], executionCount := none }
  | _ => c

/-- Modelled from the spec: per-notebook body of `operations.clear_outputs`
(not in the sources). -/
def clearNotebookOutputs (nb : Notebook) : Notebook :=
  { nb with cells := nb.cells.map clearCellOutputs }

-- Tool-boundary layer, embedded from `src/jupyter_editor/server.py`.
-- A tool result is a mapping (Python dict), modelled as an association list.
-- The file store maps a path to a loaded notebook, or nothing when the file
-- is missing (`FileNotFoundError`).

/-- The local file store: path to parsed notebook, `none` for a missing file. -/
def FS : Type := String → Option Notebook

/-- A tool result: a Python dict as an association list. -/
def Response : Type := List (String × RVal)

instance : DecidableEq Response := by
  unfold Response
  infer_instance

/-- Does a result mapping contain the given key? -/
def hasKey (r : Response) (k : String) : Bool :=
  r.any (fun kv => kv.1 = k)

/-- The error-shape contract of spec section 6: a result is either a success
mapping with no `error` key, or exactly the failure shape, a single
`error` entry. -/
def goodShape (r : Response) : Prop :=
  hasKey r "error" = false ∨ ∃ m, r = [("error", RVal.str m)]

/-- `server.py`: message for a missing file, "Notebook not found: {path}". -/
def notFoundMsg (path : String) : String := "Notebook not found: " ++ path

/-- `server.py` (`ipynb_get_cell` and friends): "Cell index {i} out of range". -/
def cellIndexMsg (i : Int) : String := "Cell index " ++ toString i ++ " out of range"

/-- `server.py` batch wrappers: "Cell index out of range: {e}". -/
def batchIndexMsg (i : Int) : String := "Cell index out of range: " ++ toString i

/-- Modelled from the spec: the ValueError messages raised by the missing
`operations` module; "not found" and "multiple matches" are distinct
(spec section 4.1). -/
def valueMsg : ValKind → String
  | .strNotFound => "String not found in cell"
  | .multipleMatches => "Multiple matches found in cell"
  | .badCellType => "Invalid cell type"
  | .reorderInvalid => "Invalid order"
  | .unknownOperation => "Unknown operation"

/-- `server.py` `ipynb_get_cell` (lines 150-181): not-found, index and
generic failures each map to an error mapping; success carries the content. -/
def ipynb_get_cell (fs : FS) (path : String) (i : Int) : Response :=
  match fs path with
  | none => [("error", .str (notFoundMsg path))]
  | some nb =>
    match get_cell_content nb i with
    | .ok content => [("content", .chars content)]
    | .error (.indexErr k) => [("error", .str (cellIndexMsg k))]
    | .error _ => [("error", .str "Failed to get cell")]

/-- `server.py` `ipynb_replace_cell` (lines 231-262). -/
def ipynb_replace_cell (fs : FS) (path : String) (i : Int)
    (newContent : List Char) : Response :=
  match fs path with
  | none => [("error", .str (notFoundMsg path))]
  | some nb =>
    match replace_cell_content nb i newContent with
    | .ok _ => [("success", .bool true)]
    | .error (.indexErr k) => [("error", .str (cellIndexMsg k))]
    | .error _ => [("error", .str "Failed to replace cell")]

/-- `server.py` `ipynb_delete_cell` (lines 353-391); on success the notebook
is re-read and the remaining cell count reported. -/
def ipynb_delete_cell (fs : FS) (path : String) (i : Int) : Response :=
  match fs path with
  | none => [("error", .str (notFoundMsg path))]
  | some nb =>
    match delete_cell nb i with
    | .ok nb' => [("success", .bool true), ("new_cell_count", .nat nb'.cells.length)]
    | .error (.indexErr k) => [("error", .str (cellIndexMsg k))]
    | .error _ => [("error", .str "Failed to delete cell")]

/-- `server.py` `ipynb_str_replace_in_cell` (lines 394-429): index errors and
ValueError-kind failures (not found / multiple matches) map to distinct
error messages. -/
def ipynb_str_replace_in_cell (fs : FS) (path : String) (i : Int)
    (oldStr newStr : List Char) : Response :=
  match fs path with
  | none => [("error", .str (notFoundMsg path))]
  | some nb =>
    match str_replace_in_cell nb i oldStr newStr with
    | .ok _ => [("success", .bool true)]
    | .error (.indexErr k) => [("error", .str (cellIndexMsg k))]
    | .error (.valueErr v) => [("error", .str (valueMsg v))]
    | .error _ => [("error", .str "Failed to replace string")]

/-- `server.py` `ipynb_insert_cell` (lines 266-308). -/
def ipynb_insert_cell (fs : FS) (path : String) (i : Int)
    (content : List Char) (cellType : String) : Response :=
  match fs path with
  | none => [("error", .str (notFoundMsg path))]
  | some nb =>
    match insert_cell nb i content cellType with
    | .ok nb' => [("success", .bool true), ("new_cell_count", .nat nb'.cells.length)]
    | .error (.valueErr v) => [("error", .str (valueMsg v))]
    | .error _ => [("error", .str "Failed to insert cell")]

/-- Modelled from the spec: `operations.get_metadata` (not in the sources);
returns the notebook-level metadata mapping, or the addressed cell's
metadata mapping when a cell index is given (spec section 3: metadata is an
unordered mapping of string keys to arbitrary values). -/
def get_metadata (nb : Notebook) (cellIndex : Option Int) :
    Except OpErr (List (String × RVal)) :=
  match cellIndex with
  | none => .ok nb.metadata
  | some i =>
    match resolveIndex nb.cells.length i with
    | none => .error (.indexErr i)
    | some j => .ok (nb.cells.getD j defaultCell).metadata

/-- `server.py` `ipynb_get_metadata` (lines 434-471): the metadata mapping
returned by the operation is handed back directly as the tool result. -/
def ipynb_get_metadata (fs : FS) (path : String) (cellIndex : Option Int) :
    Response :=
  match fs path with
  | none => [("error", .str (notFoundMsg path))]
  | some nb =>
    match get_metadata nb cellIndex with
    | .ok m => m
    | .error (.indexErr k) => [("error", .str (cellIndexMsg k))]
    | .error _ => [("error", .str "Failed to get metadata")]

/-- `server.py` `ipynb_replace_cells_batch` (lines 579-619): on success
`cells_modified` is the length of the replacements list as given. -/
def ipynb_replace_cells_batch (fs : FS) (path : String)
    (replacements : List Replacement) : Response :=
  match fs path with
  | none => [("error", .str (notFoundMsg path))]
  | some nb =>
    match replace_cells_batch nb replacements with
    | .ok _ => [("success", .bool true), ("cells_modified", .nat replacements.length)]
    | .error (.indexErr k) => [("error", .str (batchIndexMsg k))]
    | .error _ => [("error", .str "Failed to replace cells")]

/-- `server.py` `ipynb_delete_cells_batch` (lines 622-658). -/
def ipynb_delete_cells_batch (fs : FS) (path : String)
    (cellIndices : List Int) : Response :=
  match fs path with
  | none => [("error", .str (notFoundMsg path))]
  | some nb =>
    match delete_cells_batch nb cellIndices with
    | .ok nb' =>
      [("success", .bool true), ("cells_deleted", .nat cellIndices.length),
       ("new_cell_count", .nat nb'.cells.length)]
    | .error (.indexErr k) => [("error", .str (batchIndexMsg k))]
    | .error _ => [("error", .str "Failed to delete cells")]

/-- `server.py` `ipynb_insert_cells_batch` (lines 661-702). -/
def ipynb_insert_cells_batch (fs : FS) (path : String)
    (insertions : List Insertion) : Response :=
  match fs path with
  | none => [("error", .str (notFoundMsg path))]
  | some nb =>
    match insert_cells_batch nb insertions with
    | .ok _ => [("success", .bool true), ("cells_inserted", .nat insertions.length)]
    | .error (.valueErr v) => [("error", .str (valueMsg v))]
    | .error _ => [("error", .str "Failed to insert cells")]

/-- `server.py` `ipynb_reorder_cells` (lines 746-780). -/
def ipynb_reorder_cells (fs : FS) (path : String) (newOrder : List Int) :
    Response :=
  match fs path with
  | none => [("error", .str (notFoundMsg path))]
  | some nb =>
    match reorder_cells nb newOrder with
    | .ok _ => [("success", .bool true)]
    | .error (.valueErr v) => [("error", .str (valueMsg v))]
    | .error _ => [("error", .str "Failed to reorder cells")]

/-- `server.py` `ipynb_merge_notebooks` (lines 838-875): loads every input,
merges, writes the output and reports its cell count and the number of
inputs. -/
def ipynb_merge_notebooks (fs : FS) (outPath : String)
    (inputPaths : List String) (addSeparators : Bool) : Response :=
  match inputPaths.mapM (fun p => (fs p).map (fun nb => (p, nb))) with
  | none => [("error", .str "Notebook not found")]
  | some inputs =>
    let merged := merge_notebooks inputs addSeparators
    [("success", .bool true), ("total_cells", .nat merged.cells.length),
     ("notebooks_merged", .nat inputPaths.length)]

/-- Argument of `ipynb_clear_outputs`: a single path or a list of paths. -/
inductive PathsArg where
  | single : String → PathsArg
  | many : List String → PathsArg
deriving DecidableEq, Repr

/-- The path list a `PathsArg` denotes (the internal normalization). -/
def PathsArg.toList : PathsArg → List String
  | .single p => [p]
  | .many ps => ps

/-- Modelled from the spec: `operations.clear_outputs` (not in the sources);
normalizes the argument to a list and clears every listed notebook, failing
when a path is missing (spec section 4.4). -/
def clear_outputs (fs : FS) (arg : PathsArg) : Except OpErr (List Notebook) :=
  arg.toList.mapM (fun p =>
    match fs p with
    | none => .error OpErr.notFound
    | some nb => .ok (clearNotebookOutputs nb))

/-- `server.py` `ipynb_clear_outputs` (lines 1082-1118): on success the
reported count is 1 for a single-path argument and the list length for a
list argument (line 1113). -/
def ipynb_clear_outputs (fs : FS) (arg : PathsArg) : Response :=
  match clear_outputs fs arg with
  | .error _ => [("error", .str "Notebook not found")]
  | .ok _ =>
    let count := match arg with
      | .single _ => 1
      | .many ps => ps.length
    [("success", .bool true), ("notebooks_processed", .nat count)]

/-- The fixed operation set accepted by `apply_to_notebooks`
(spec section 4.4). -/
def validOperation (op : String) : Bool :=
  op = "set_kernel" || op = "clear_outputs" || op = "update_metadata"

/-- Modelled from the spec: `operations.apply_operation_to_notebooks` (not
in the sources); an unknown operation name fails the whole call before
touching any path, otherwise each path is processed independently and a
per-path success flag is produced — a failure on one path does not abort
the others (spec section 4.4). -/
def apply_operation_to_notebooks (fs : FS) (paths : List String)
    (op : String) : Except OpErr (List (String × Bool)) :=
  if validOperation op then
    .ok (paths.map (fun p => (p, (fs p).isSome)))
  else
    .error (.valueErr .unknownOperation)

/-- `server.py` `ipynb_apply_to_notebooks` (lines 917-956): once the per-path
results map comes back, the tool reports `success: True`, the number of
truthy per-path results, and `failed` as the remainder. -/
def ipynb_apply_to_notebooks (fs : FS) (paths : List String) (op : String) :
    Response :=
  match apply_operation_to_notebooks fs paths op with
  | .error (.valueErr v) => [("error", .str (valueMsg v))]
  | .error _ => [("error", .str "Failed to apply operation")]
  | .ok results =>
    let successCount := results.countP (fun pr => pr.2 = true)
    [("success", .bool true), ("results", .pathResults results),
     ("successful", .nat successCount),
     ("failed", .nat (results.length - successCount))]

-- Supporting lemmas

theorem string_data_append (s t : String) : (s ++ t).data = s.data ++ t.data := by
  cases s; cases t; rfl

theorem cellIndexMsg_ne_notFoundMsg (i : Int) (path : String) :
    cellIndexMsg i ≠ notFoundMsg path := by
  intro h
  have hd := congrArg String.data h
  unfold cellIndexMsg notFoundMsg at hd
  simp only [string_data_append] at hd
  simp only [List.cons_append] at hd
  injection hd with hc _
  exact absurd hc (by decide)

/-- C1: the claim asserts that index resolution is a bijection from the
valid range `[-N, N-1]` onto `[0, N-1]`; it is not injective there: on a
2-cell document both `-1` and `1` resolve to cell 1. -/
theorem C1_resolve_not_bijective :
    resolveIndex 2 (-1) = some 1 ∧ resolveIndex 2 1 = some 1 ∧ (-1 : Int) ≠ 1 := by
  refine ⟨by decide, by decide, by decide⟩

/-- C1 (amended): for an N-cell document, index `i` is valid exactly when
`-N <= i <= N-1`, a negative `i` resolves to `N + i` and a nonnegative one
to itself; resolution is onto `[0, N-1]` — every cell position is reached by
exactly one nonnegative and one negative valid index, the restriction to the
negative half being injective — and any invalid `i` makes `get_cell`,
`replace_cell`, `delete_cell` and `str_replace_in_cell` fail with an
IndexError-kind failure carrying `i`, a kind distinct from the
file-not-found failure (which also carries a distinct boundary message). -/
theorem C1_indexing_contract :
    (∀ (n : Nat) (i : Int),
       (resolveIndex n i).isSome ↔ (-(n : Int) ≤ i ∧ i ≤ (n : Int) - 1))
  ∧ (∀ (n : Nat) (i : Int), -(n : Int) ≤ i → i ≤ (n : Int) - 1 →
       resolveIndex n i = some (if i < 0 then ((n : Int) + i).toNat else i.toNat))
  ∧ (∀ (n j : Nat), j < n →
       resolveIndex n (j : Int) = some j ∧ resolveIndex n ((j : Int) - n) = some j)
  ∧ (∀ (n : Nat) (i₁ i₂ : Int), i₁ < 0 → i₂ < 0 →
       resolveIndex n i₁ = resolveIndex n i₂ → (resolveIndex n i₁).isSome → i₁ = i₂)
  ∧ (∀ (nb : Notebook) (i : Int) (c old new : List Char),
       resolveIndex nb.cells.length i = none →
       get_cell_content nb i = .error (.indexErr i)
     ∧ replace_cell_content nb i c = .error (.indexErr i)
     ∧ delete_cell nb i = .error (.indexErr i)
     ∧ str_replace_in_cell nb i old new = .error (.indexErr i)
     ∧ OpErr.indexErr i ≠ OpErr.notFound)
  ∧ (∀ (fs : FS) (path : String) (i : Int) (nb : Notebook), fs path = some nb →
       resolveIndex nb.cells.length i = none →
       ipynb_get_cell fs path i = [("error", RVal.str (cellIndexMsg i))])
  ∧ (∀ (fs : FS) (path : String) (i : Int), fs path = none →
       ipynb_get_cell fs path i = [("error", RVal.str (notFoundMsg path))])
  ∧ (∀ (i : Int) (path : String), cellIndexMsg i ≠ notFoundMsg path) := by
  refine ⟨resolveIndex_isSome_iff, resolveIndex_of_valid, ?_, ?_, ?_, ?_, ?_,
    cellIndexMsg_ne_notFoundMsg⟩
  · intro n j hj
    constructor
    · have hp : (0 : Int) ≤ (j : Int) ∧ (j : Int) < (n : Int) := by
        constructor <;> omega
      simp [resolveIndex, hp]
    · have hneg : ¬ ((0 : Int) ≤ (j : Int) - n ∧ (j : Int) - n < (n : Int)) := by
        omega
      have hin : -(n : Int) ≤ (j : Int) - n ∧ (j : Int) - n < 0 := by
        constructor <;> omega
      simp only [resolveIndex, if_neg hneg, if_pos hin]
      congr 1
      omega
  · intro n i₁ i₂ h1 h2 heq hsome
    have hv1 : -(n : Int) ≤ i₁ ∧ i₁ ≤ (n : Int) - 1 :=
      (resolveIndex_isSome_iff n i₁).mp hsome
    have hsome2 : (resolveIndex n i₂).isSome := heq ▸ hsome
    have hv2 : -(n : Int) ≤ i₂ ∧ i₂ ≤ (n : Int) - 1 :=
      (resolveIndex_isSome_iff n i₂).mp hsome2
    rw [resolveIndex_of_valid n i₁ hv1.1 hv1.2,
        resolveIndex_of_valid n i₂ hv2.1 hv2.2, if_pos h1, if_pos h2] at heq
    have := Option.some.inj heq
    omega
  · intro nb i c old new h
    refine ⟨?_, ?_, ?_, ?_, by simp⟩
    · simp [get_cell_content, h]
    · simp [replace_cell_content, h]
    · simp [delete_cell, h]
    · simp [str_replace_in_cell, h]
  · intro fs path i nb hfs h
    simp [ipynb_get_cell, hfs, get_cell_content, h]
  · intro fs path i hfs
    simp [ipynb_get_cell, hfs]

/-- C1 witness: concrete instances of the indexing contract. -/
theorem C1_indexing_contract_witness :
    resolveIndex 3 (-1) = some (if (-1 : Int) < 0 then ((3 : Int) + -1).toNat else (-1 : Int).toNat)
  ∧ get_cell_content { cells := [] } 0 = .error (.indexErr 0)
  ∧ ipynb_get_cell (fun _ => none) "nb.ipynb" 0 =
      [("error", RVal.str (notFoundMsg "nb.ipynb"))] := by
  refine ⟨C1_indexing_contract.2.1 3 (-1) (by decide) (by decide),
    (C1_indexing_contract.2.2.2.2.1 { cells := [] } 0 [] [] [] (by decide)).1,
    C1_indexing_contract.2.2.2.2.2.2.1 (fun _ => none) "nb.ipynb" 0 rfl⟩

/-- C2: `insert_cells_batch` applies its insertions sequentially, each
index interpreted against the document produced by all prior insertions of
the batch; on a one-cell document `[X]`, inserting `{0, "A"}` then
`{0, "B"}` yields `[B, A, X]`. -/
theorem C2_insert_batch_sequential :
    (∀ (nb : Notebook) (x : Insertion) (rest : List Insertion),
       insert_cells_batch nb (x :: rest) =
         match insert_cell nb x.cellIndex x.content x.cellType with
         | .error e => .error e
         | .ok nb' => insert_cells_batch nb' rest)
  ∧ insert_cells_batch { cells := [{ cellType := .code, source := ['X'] }] }
      [⟨0, ['A'], "code"⟩, ⟨0, ['B'], "code"⟩] =
      .ok { cells := [{ cellType := .code, source := ['B'] },
                      { cellType := .code, source := ['A'] },
                      { cellType := .code, source := ['X'] }] } := by
  constructor
  · intro nb x rest
    rfl
  · rfl

/-- A code cell with the given source, used in concrete instances. -/
def codeCell (s : List Char) : Cell := { cellType := .code, source := s }

/-- C3: for pairwise-distinct valid indices (interpreted against the
pre-deletion document), `delete_cells_batch` is independent of the order
the indices are listed in, and all indices are validated before any
deletion: any invalid index yields an IndexError-kind failure and leaves
the stored document unchanged. -/
theorem C3_delete_batch_order_independent :
    (∀ (nb : Notebook) (l₁ l₂ : List Int), l₁.Perm l₂ → l₁.Nodup →
       (∀ i ∈ l₁, (resolveIndex nb.cells.length i).isSome) →
       delete_cells_batch nb l₁ = delete_cells_batch nb l₂)
  ∧ (∀ (nb : Notebook) (l : List Int) (i : Int), i ∈ l →
       resolveIndex nb.cells.length i = none →
       (∃ j, delete_cells_batch nb l = .error (.indexErr j))
     ∧ deleteBatchStored nb l = nb) := by
  constructor
  · intro nb l₁ l₂ hp _hnd hv
    have hv₂ : ∀ i ∈ l₂, (resolveIndex nb.cells.length i).isSome := by
      intro i hi
      exact hv i (hp.mem_iff.mpr hi)
    have hf₁ : l₁.find? (fun i => (resolveIndex nb.cells.length i).isNone) = none := by
      rw [List.find?_eq_none]
      intro i hi hcon
      have hsome := hv i hi
      simp only [Option.isNone_iff_eq_none] at hcon
      rw [hcon] at hsome
      simp at hsome
    have hf₂ : l₂.find? (fun i => (resolveIndex nb.cells.length i).isNone) = none := by
      rw [List.find?_eq_none]
      intro i hi hcon
      have hsome := hv₂ i hi
      simp only [Option.isNone_iff_eq_none] at hcon
      rw [hcon] at hsome
      simp at hsome
    have hjs : (l₁.filterMap (resolveIndex nb.cells.length)).Perm
        (l₂.filterMap (resolveIndex nb.cells.length)) := hp.filterMap _
    have hsorteq : (l₁.filterMap (resolveIndex nb.cells.length)).insertionSort (· ≥ ·)
        = (l₂.filterMap (resolveIndex nb.cells.length)).insertionSort (· ≥ ·) :=
      List.eq_of_perm_of_sorted
        (((List.perm_insertionSort (· ≥ ·) _).trans hjs).trans
          (List.perm_insertionSort (· ≥ ·) _).symm)
        (List.sorted_insertionSort (· ≥ ·) _)
        (List.sorted_insertionSort (· ≥ ·) _)
    simp only [delete_cells_batch, hf₁, hf₂]
    rw [hsorteq]
  · intro nb l i hi hnone
    have hs : (l.find? (fun i => (resolveIndex nb.cells.length i).isNone)).isSome := by
      rw [List.find?_isSome]
      exact ⟨i, hi, by rw [hnone]; rfl⟩
    obtain ⟨j, hj⟩ := Option.isSome_iff_exists.mp hs
    refine ⟨⟨j, ?_⟩, ?_⟩
    · unfold delete_cells_batch
      rw [hj]
    · unfold deleteBatchStored delete_cells_batch
      rw [hj]

/-- C3 witness: deleting cells 0 and 2 of a three-cell document gives the
same result whichever order the indices are listed in. -/
theorem C3_delete_batch_witness :
    delete_cells_batch { cells := [codeCell ['a'], codeCell ['b'], codeCell ['c']] } [0, 2]
  = delete_cells_batch { cells := [codeCell ['a'], codeCell ['b'], codeCell ['c']] } [2, 0] :=
  C3_delete_batch_order_independent.1
    { cells := [codeCell ['a'], codeCell ['b'], codeCell ['c']] } [0, 2] [2, 0]
    (by decide) (by decide) (by decide)

/-- When a nonempty pattern occurs (the source decomposes around it),
`splitFirst` finds an occurrence. -/
theorem splitFirst_isSome_of_countOcc_one {old s : List Char}
    (h : countOcc old s = 1) : ∃ pq, splitFirst old s = some pq := by
  by_cases hp : old = []
  · subst hp
    rw [countOcc] at h
    simp at h
    subst h
    exact ⟨([], []), rfl⟩
  · cases hsp : splitFirst old s with
    | none =>
      rw [countOcc_eq_zero hp hsp] at h
      exact absurd h (by decide)
    | some pq => exact ⟨pq, rfl⟩

/-- C4: `str_replace_in_cell` fails with the "not found" ValueError kind
when `old` occurs zero times in the addressed cell's source, with the
distinct "multiple matches" kind when it occurs two or more times, and when
it occurs exactly once succeeds, replacing exactly that single occurrence. -/
theorem C4_str_replace_exactness :
    ∀ (nb : Notebook) (i : Int) (j : Nat) (old new : List Char),
      resolveIndex nb.cells.length i = some j →
      (countOcc old (nb.cells.getD j defaultCell).source = 0 →
         str_replace_in_cell nb i old new = .error (.valueErr .strNotFound))
    ∧ (2 ≤ countOcc old (nb.cells.getD j defaultCell).source →
         str_replace_in_cell nb i old new = .error (.valueErr .multipleMatches))
    ∧ (countOcc old (nb.cells.getD j defaultCell).source = 1 →
         ∃ p q, (nb.cells.getD j defaultCell).source = p ++ old ++ q ∧
           str_replace_in_cell nb i old new =
             .ok { nb with
                   cells := nb.cells.set j
                     ({ nb.cells.getD j defaultCell with source := p ++ new ++ q }) })
    ∧ ValKind.strNotFound ≠ ValKind.multipleMatches := by
  intro nb i j old new hres
  refine ⟨?_, ?_, ?_, by decide⟩
  · intro h0
    simp only [str_replace_in_cell, hres]
    rw [if_pos h0]
  · intro h2
    have hne : ¬ countOcc old (nb.cells.getD j defaultCell).source = 0 := by omega
    have hlt : 1 < countOcc old (nb.cells.getD j defaultCell).source := by omega
    simp only [str_replace_in_cell, hres]
    rw [if_neg hne, if_pos hlt]
  · intro h1
    obtain ⟨⟨p, q⟩, hsp⟩ := splitFirst_isSome_of_countOcc_one h1
    refine ⟨p, q, splitFirst_sound hsp, ?_⟩
    have hne : ¬ countOcc old (nb.cells.getD j defaultCell).source = 0 := by omega
    have hnlt : ¬ 1 < countOcc old (nb.cells.getD j defaultCell).source := by omega
    simp only [str_replace_in_cell, hres]
    rw [if_neg hne, if_neg hnlt, hsp]

/-- C4 witness: concrete zero-, multiple- and single-occurrence calls. -/
theorem C4_str_replace_witness :
    str_replace_in_cell { cells := [codeCell ['a', 'c', 'b']] } 0 ['z'] ['Z']
      = .error (.valueErr .strNotFound)
  ∧ str_replace_in_cell { cells := [codeCell ['b', 'c', 'b']] } 0 ['b'] ['Z']
      = .error (.valueErr .multipleMatches)
  ∧ ∃ p q, (['a', 'c', 'b'] : List Char) = p ++ ['c'] ++ q ∧
      str_replace_in_cell { cells := [codeCell ['a', 'c', 'b']] } 0 ['c'] ['Z'] =
        .ok { cells := [{ codeCell ['a', 'c', 'b'] with source := p ++ ['Z'] ++ q }] } := by
  refine ⟨?_, ?_, ?_⟩
  · exact (C4_str_replace_exactness { cells := [codeCell ['a', 'c', 'b']] } 0 0
      ['z'] ['Z'] (by decide)).1 (by decide)
  · exact (C4_str_replace_exactness { cells := [codeCell ['b', 'c', 'b']] } 0 0
      ['b'] ['Z'] (by decide)).2.1 (by decide)
  · obtain ⟨p, q, hpq, hres⟩ := (C4_str_replace_exactness
      { cells := [codeCell ['a', 'c', 'b']] } 0 0 ['c'] ['Z'] (by decide)).2.2.1 (by decide)
    exact ⟨p, q, hpq, hres⟩

/-- The validation check of `reorder_cells` holds exactly when `new_order`
is a permutation of the full index range `[0, N-1]`. -/
theorem reorderCheck_iff_perm (n : Nat) (ord : List Int) :
    (ord.length = n ∧ (∀ i ∈ ord, 0 ≤ i ∧ i < (n : Int)) ∧ ord.Nodup)
      ↔ ord.Perm ((List.range n).map (Nat.cast : Nat → Int)) := by
  constructor
  · rintro ⟨hlen, hrange, hnodup⟩
    have hsub : ord ⊆ (List.range n).map (Nat.cast : Nat → Int) := by
      intro i hi
      obtain ⟨h0, hn⟩ := hrange i hi
      rw [List.mem_map]
      refine ⟨i.toNat, ?_, by omega⟩
      rw [List.mem_range]
      omega
    have hsp := hnodup.subperm hsub
    apply hsp.perm_of_length_le
    rw [List.length_map, List.length_range, hlen]
  · intro hperm
    have hlen := hperm.length_eq
    rw [List.length_map, List.length_range] at hlen
    refine ⟨hlen, ?_, ?_⟩
    · intro i hi
      have := hperm.mem_iff.mp hi
      rw [List.mem_map] at this
      obtain ⟨j, hj, rfl⟩ := this
      rw [List.mem_range] at hj
      omega
    · rw [hperm.nodup_iff]
      exact (List.nodup_range n).map (fun a b h => by omega)

/-- C5: `reorder_cells` succeeds exactly when `new_order` is a permutation
containing every valid index exactly once; on success position `k` holds
the cell previously at `new_order[k]`; any missing, duplicate or
out-of-range index yields a ValueError-kind failure and leaves the stored
document unchanged. -/
theorem C5_reorder_permutation_contract :
    (∀ (nb : Notebook) (ord : List Int),
       ord.Perm ((List.range nb.cells.length).map (Nat.cast : Nat → Int)) →
       reorder_cells nb ord =
         .ok { nb with
               cells := ord.map (fun i => nb.cells.getD i.toNat defaultCell) }
     ∧ ∀ k, k < ord.length →
         (ord.map (fun i => nb.cells.getD i.toNat defaultCell)).getD k defaultCell
           = nb.cells.getD (ord.getD k 0).toNat defaultCell)
  ∧ (∀ (nb : Notebook) (ord : List Int),
       ¬ ord.Perm ((List.range nb.cells.length).map (Nat.cast : Nat → Int)) →
       reorder_cells nb ord = .error (.valueErr .reorderInvalid)
     ∧ reorderStored nb ord = nb) := by
  constructor
  · intro nb ord hperm
    have hcheck := (reorderCheck_iff_perm nb.cells.length ord).mpr hperm
    constructor
    · unfold reorder_cells
      rw [if_pos hcheck]
    · intro k hk
      have hord : ord.getD k 0 = ord[k] := by
        rw [List.getD_eq_getElem?_getD, List.getElem?_eq_getElem hk]
        rfl
      have hmap : (ord.map (fun i => nb.cells.getD i.toNat defaultCell))[k]?
          = some (nb.cells.getD (ord.getD k 0).toNat defaultCell) := by
        rw [hord, List.getElem?_map, List.getElem?_eq_getElem hk]
        rfl
      rw [List.getD_eq_getElem?_getD, hmap]
      rfl
  · intro nb ord hnp
    have hcheck : ¬ (ord.length = nb.cells.length
        ∧ (∀ i ∈ ord, 0 ≤ i ∧ i < (nb.cells.length : Int)) ∧ ord.Nodup) := by
      intro hc
      exact hnp ((reorderCheck_iff_perm nb.cells.length ord).mp hc)
    constructor
    · unfold reorder_cells
      rw [if_neg hcheck]
    · unfold reorderStored reorder_cells
      rw [if_neg hcheck]

/-- C5 witness: a valid permutation reorders a two-cell document; a
duplicate-bearing order fails and leaves the document unchanged. -/
theorem C5_reorder_witness :
    reorder_cells { cells := [codeCell ['a'], codeCell ['b']] } [1, 0]
      = .ok { cells := [codeCell ['b'], codeCell ['a']] }
  ∧ reorder_cells { cells := [codeCell ['a'], codeCell ['b']] } [0, 0]
      = .error (.valueErr .reorderInvalid)
  ∧ reorderStored { cells := [codeCell ['a'], codeCell ['b']] } [0, 0]
      = { cells := [codeCell ['a'], codeCell ['b']] } := by
  refine ⟨?_, ?_, ?_⟩
  · exact (C5_reorder_permutation_contract.1
      { cells := [codeCell ['a'], codeCell ['b']] } [1, 0] (by decide)).1
  · exact (C5_reorder_permutation_contract.2
      { cells := [codeCell ['a'], codeCell ['b']] } [0, 0] (by decide)).1
  · exact (C5_reorder_permutation_contract.2
      { cells := [codeCell ['a'], codeCell ['b']] } [0, 0] (by decide)).2

/-- C6: with separators on, `merge` puts one markdown separator cell naming
the source file before each input's block (including the first), so the
merged cell count is the sum of the inputs' counts plus the number of
inputs; the output metadata is copied from the first input.  Two inputs of
3 and 2 cells yield 3+2+2 = 7 cells. -/
theorem C6_merge_separator_count :
    (∀ (inputs : List (String × Notebook)),
       (merge_notebooks inputs true).cells =
         (inputs.map (fun pn => separatorCell pn.1 :: pn.2.cells)).flatten
     ∧ (merge_notebooks inputs true).cells.length =
         (inputs.map (fun pn => pn.2.cells.length)).sum + inputs.length
     ∧ ∀ p ∈ inputs, (separatorCell p.1).cellType = CellType.markdown)
  ∧ (∀ (p : String) (nb : Notebook) (rest : List (String × Notebook)),
       (merge_notebooks ((p, nb) :: rest) true).metadata = nb.metadata)
  ∧ (merge_notebooks
       [("a.ipynb", { cells := [codeCell ['1'], codeCell ['2'], codeCell ['3']] }),
        ("b.ipynb", { cells := [codeCell ['4'], codeCell ['5']] })]
       true).cells.length = 7 := by
  refine ⟨?_, ?_, by rfl⟩
  · intro inputs
    refine ⟨rfl, ?_, fun p _ => rfl⟩
    show ((inputs.map (fun pn => separatorCell pn.1 :: pn.2.cells)).flatten).length
      = (inputs.map (fun pn => pn.2.cells.length)).sum + inputs.length
    induction inputs with
    | nil => rfl
    | cons pn rest ih =>
      simp only [List.map_cons, List.flatten_cons, List.length_append,
        List.length_cons, List.sum_cons]
      rw [ih]
      omega
  · intro p nb rest
    rfl

/-- C6 witness: the separator before a concrete input is a markdown cell. -/
theorem C6_merge_separator_witness :
    (separatorCell "a.ipynb").cellType = CellType.markdown :=
  (C6_merge_separator_count.1 [("a.ipynb", { cells := [] })]).2.2
    ("a.ipynb", { cells := [] }) (by simp)

-- Error-shape helpers

theorem goodShape_err (m : String) : goodShape [("error", RVal.str m)] :=
  Or.inr ⟨m, rfl⟩

theorem resolveIndex_lt {n : Nat} {i : Int} {j : Nat}
    (h : resolveIndex n i = some j) : j < n := by
  unfold resolveIndex at h
  by_cases h1 : 0 ≤ i ∧ i < (n : Int)
  · rw [if_pos h1] at h
    injection h with h2
    omega
  · rw [if_neg h1] at h
    by_cases h2 : -(n : Int) ≤ i ∧ i < 0
    · rw [if_pos h2] at h
      injection h with h3
      omega
    · rw [if_neg h2] at h
      exact absurd h (by simp)

/-- C7: the claim asserts every operation's success mapping never carries an
`error` key; `ipynb_get_metadata` hands the stored metadata mapping back
directly, so a notebook whose metadata holds an `error` key (beside another
key) yields a success result that is neither error-free nor the failure
shape. -/
theorem C7_metadata_leak_counterexample :
    ¬ goodShape (ipynb_get_metadata
      (fun _ => some { cells := [],
                       metadata := [("error", RVal.str "boom"),
                                    ("author", RVal.str "x")] })
      "nb.ipynb" none) := by
  intro h
  cases h with
  | inl h1 => simp [ipynb_get_metadata, get_metadata, hasKey] at h1
  | inr h2 =>
    obtain ⟨m, hm⟩ := h2
    simp only [ipynb_get_metadata, get_metadata] at hm
    injection hm with _ htail
    exact absurd htail (by simp)

/-- C7 (amended): every embedded operation other than `ipynb_get_metadata`
returns, for every input, either a success mapping with no `error` key or
exactly the failure shape `{error: message}`; `ipynb_get_metadata` satisfies
the same dichotomy whenever the stored notebook- and cell-metadata mappings
contain no `error` key themselves.  All embedded operations are total, so no
failure escapes the boundary as a raised fault. -/
theorem C7_error_shape :
    (∀ fs path i, goodShape (ipynb_get_cell fs path i))
  ∧ (∀ fs path i c, goodShape (ipynb_replace_cell fs path i c))
  ∧ (∀ fs path i, goodShape (ipynb_delete_cell fs path i))
  ∧ (∀ fs path i o n, goodShape (ipynb_str_replace_in_cell fs path i o n))
  ∧ (∀ fs path i c t, goodShape (ipynb_insert_cell fs path i c t))
  ∧ (∀ fs path reps, goodShape (ipynb_replace_cells_batch fs path reps))
  ∧ (∀ fs path idcs, goodShape (ipynb_delete_cells_batch fs path idcs))
  ∧ (∀ fs path ins, goodShape (ipynb_insert_cells_batch fs path ins))
  ∧ (∀ fs path ord, goodShape (ipynb_reorder_cells fs path ord))
  ∧ (∀ fs out ins b, goodShape (ipynb_merge_notebooks fs out ins b))
  ∧ (∀ fs arg, goodShape (ipynb_clear_outputs fs arg))
  ∧ (∀ fs paths op, goodShape (ipynb_apply_to_notebooks fs paths op))
  ∧ (∀ (fs : FS) path ci nb, fs path = some nb →
       hasKey nb.metadata "error" = false →
       (∀ c ∈ nb.cells, hasKey c.metadata "error" = false) →
       goodShape (ipynb_get_metadata fs path ci)) := by
  refine ⟨?_, ?_, ?_, ?_, ?_, ?_, ?_, ?_, ?_, ?_, ?_, ?_, ?_⟩
  · intro fs path i
    unfold ipynb_get_cell
    cases hfs : fs path with
    | none => exact goodShape_err _
    | some nb =>
      dsimp only
      cases hop : get_cell_content nb i with
      | ok v => exact Or.inl (by simp [hasKey])
      | error e => cases e <;> exact goodShape_err _
  · intro fs path i c
    unfold ipynb_replace_cell
    cases hfs : fs path with
    | none => exact goodShape_err _
    | some nb =>
      dsimp only
      cases hop : replace_cell_content nb i c with
      | ok v => exact Or.inl (by simp [hasKey])
      | error e => cases e <;> exact goodShape_err _
  · intro fs path i
    unfold ipynb_delete_cell
    cases hfs : fs path with
    | none => exact goodShape_err _
    | some nb =>
      dsimp only
      cases hop : delete_cell nb i with
      | ok v => exact Or.inl (by simp [hasKey])
      | error e => cases e <;> exact goodShape_err _
  · intro fs path i o n
    unfold ipynb_str_replace_in_cell
    cases hfs : fs path with
    | none => exact goodShape_err _
    | some nb =>
      dsimp only
      cases hop : str_replace_in_cell nb i o n with
      | ok v => exact Or.inl (by simp [hasKey])
      | error e => cases e <;> exact goodShape_err _
  · intro fs path i c t
    unfold ipynb_insert_cell
    cases hfs : fs path with
    | none => exact goodShape_err _
    | some nb =>
      dsimp only
      cases hop : insert_cell nb i c t with
      | ok v => exact Or.inl (by simp [hasKey])
      | error e => cases e <;> exact goodShape_err _
  · intro fs path reps
    unfold ipynb_replace_cells_batch
    cases hfs : fs path with
    | none => exact goodShape_err _
    | some nb =>
      dsimp only
      cases hop : replace_cells_batch nb reps with
      | ok v => exact Or.inl (by simp [hasKey])
      | error e => cases e <;> exact goodShape_err _
  · intro fs path idcs
    unfold ipynb_delete_cells_batch
    cases hfs : fs path with
    | none => exact goodShape_err _
    | some nb =>
      dsimp only
      cases hop : delete_cells_batch nb idcs with
      | ok v => exact Or.inl (by simp [hasKey])
      | error e => cases e <;> exact goodShape_err _
  · intro fs path ins
    unfold ipynb_insert_cells_batch
    cases hfs : fs path with
    | none => exact goodShape_err _
    | some nb =>
      dsimp only
      cases hop : insert_cells_batch nb ins with
      | ok v => exact Or.inl (by simp [hasKey])
      | error e => cases e <;> exact goodShape_err _
  · intro fs path ord
    unfold ipynb_reorder_cells
    cases hfs : fs path with
    | none => exact goodShape_err _
    | some nb =>
      dsimp only
      cases hop : reorder_cells nb ord with
      | ok v => exact Or.inl (by simp [hasKey])
      | error e => cases e <;> exact goodShape_err _
  · intro fs out ins b
    unfold ipynb_merge_notebooks
    cases hm : ins.mapM (fun p => (fs p).map (fun nb => (p, nb))) with
    | none => exact goodShape_err _
    | some inputs => exact Or.inl (by simp [hasKey])
  · intro fs arg
    unfold ipynb_clear_outputs
    cases hc : clear_outputs fs arg with
    | error e => exact goodShape_err _
    | ok v => exact Or.inl (by simp [hasKey])
  · intro fs paths op
    unfold ipynb_apply_to_notebooks
    cases ha : apply_operation_to_notebooks fs paths op with
    | error e => cases e <;> exact goodShape_err _
    | ok results => exact Or.inl (by simp [hasKey])
  · intro fs path ci nb hfs hmeta hcellmeta
    unfold ipynb_get_metadata
    rw [hfs]
    cases ci with
    | none => exact Or.inl hmeta
    | some i =>
      dsimp only [get_metadata]
      cases hres : resolveIndex nb.cells.length i with
      | none => exact goodShape_err _
      | some j =>
        have hj := resolveIndex_lt hres
        have hmem : nb.cells.getD j defaultCell ∈ nb.cells := by
          rw [List.getD_eq_getElem?_getD, List.getElem?_eq_getElem hj]
          exact List.getElem_mem hj
        exact Or.inl (hcellmeta _ hmem)

/-- C7 witness: concrete shapes — a missing file gives the failure shape, a
successful read gives an error-free mapping, and a clean metadata read
satisfies the dichotomy. -/
theorem C7_error_shape_witness :
    goodShape (ipynb_get_cell (fun _ => none) "nb.ipynb" 0)
  ∧ goodShape (ipynb_get_metadata
      (fun _ => some { cells := [], metadata := [("author", RVal.str "x")] })
      "nb.ipynb" none) :=
  ⟨C7_error_shape.1 (fun _ => none) "nb.ipynb" 0,
   C7_error_shape.2.2.2.2.2.2.2.2.2.2.2.2
     (fun _ => some { cells := [], metadata := [("author", RVal.str "x")] })
     "nb.ipynb" none { cells := [], metadata := [("author", RVal.str "x")] }
     rfl (by decide) (by decide)⟩

/-- The document stored after a `replace_cells_batch` call: on failure
nothing is persisted (spec section 2). -/
def replaceBatchStored (nb : Notebook) (reps : List Replacement) : Notebook :=
  match replace_cells_batch nb reps with
  | .error _ => nb
  | .ok nb' => nb'

/-- Number of cell positions whose cell differs between two documents. -/
def changedPositions (nb nb' : Notebook) : Nat :=
  ((List.range nb.cells.length).filter
    (fun j => nb.cells.getD j defaultCell ≠ nb'.cells.getD j defaultCell)).length

/-- C8: on success `ipynb_replace_cells_batch` reports `cells_modified` as
the length of the replacements list exactly as given by the caller, so with
two entries targeting the same cell the reported count (2) exceeds the
number of distinct cells whose content changed (1). -/
theorem C8_replace_batch_reported_count :
    (∀ (fs : FS) (path : String) (nb : Notebook) (reps : List Replacement),
       fs path = some nb →
       (∀ r ∈ reps, (resolveIndex nb.cells.length r.cellIndex).isSome) →
       ipynb_replace_cells_batch fs path reps =
         [("success", RVal.bool true), ("cells_modified", RVal.nat reps.length)])
  ∧ ipynb_replace_cells_batch
      (fun _ => some { cells := [codeCell ['a'], codeCell ['b']] }) "p"
      [⟨0, ['x']⟩, ⟨0, ['y']⟩] =
      [("success", RVal.bool true), ("cells_modified", RVal.nat 2)]
  ∧ changedPositions { cells := [codeCell ['a'], codeCell ['b']] }
      (replaceBatchStored { cells := [codeCell ['a'], codeCell ['b']] }
        [⟨0, ['x']⟩, ⟨0, ['y']⟩]) = 1 := by
  refine ⟨?_, by rfl, by rfl⟩
  intro fs path nb reps hfs hv
  unfold ipynb_replace_cells_batch
  rw [hfs]
  dsimp only [replace_cells_batch]
  have hfind : reps.find?
      (fun r => (resolveIndex nb.cells.length r.cellIndex).isNone) = none := by
    rw [List.find?_eq_none]
    intro r hr hcon
    have hsome := hv r hr
    simp only [Option.isNone_iff_eq_none] at hcon
    rw [hcon] at hsome
    simp at hsome
  rw [hfind]

/-- C8 witness: a batch of two valid replacements reports a count of two. -/
theorem C8_replace_batch_witness :
    ipynb_replace_cells_batch
      (fun _ => some { cells := [codeCell ['a'], codeCell ['b']] }) "p"
      [⟨0, ['x']⟩, ⟨1, ['y']⟩] =
      [("success", RVal.bool true), ("cells_modified", RVal.nat 2)] :=
  C8_replace_batch_reported_count.1
    (fun _ => some { cells := [codeCell ['a'], codeCell ['b']] }) "p"
    { cells := [codeCell ['a'], codeCell ['b']] }
    [⟨0, ['x']⟩, ⟨1, ['y']⟩] rfl (by decide)

/-- C9: on success `ipynb_clear_outputs` reports `notebooks_processed`
computed solely from the shape of its argument — 1 for a single path, the
list length for a list — independent of the target notebooks' contents. -/
theorem C9_clear_outputs_count :
    (∀ (fs : FS) (arg : PathsArg) (nbs : List Notebook),
       clear_outputs fs arg = .ok nbs →
       ipynb_clear_outputs fs arg =
         [("success", RVal.bool true),
          ("notebooks_processed",
           RVal.nat (match arg with | .single _ => 1 | .many ps => ps.length))])
  ∧ (∀ (fs₁ fs₂ : FS) (arg : PathsArg) (n₁ n₂ : List Notebook),
       clear_outputs fs₁ arg = .ok n₁ → clear_outputs fs₂ arg = .ok n₂ →
       ipynb_clear_outputs fs₁ arg = ipynb_clear_outputs fs₂ arg) := by
  have hmain : ∀ (fs : FS) (arg : PathsArg) (nbs : List Notebook),
      clear_outputs fs arg = .ok nbs →
      ipynb_clear_outputs fs arg =
        [("success", RVal.bool true),
         ("notebooks_processed",
          RVal.nat (match arg with | .single _ => 1 | .many ps => ps.length))] := by
    intro fs arg nbs h
    unfold ipynb_clear_outputs
    rw [h]
  refine ⟨hmain, ?_⟩
  intro fs₁ fs₂ arg n₁ n₂ h₁ h₂
  rw [hmain fs₁ arg n₁ h₁, hmain fs₂ arg n₂ h₂]

/-- C9 witness: clearing a single notebook that has outputs reports a count
of one, computed from the argument shape. -/
theorem C9_clear_outputs_witness :
    ipynb_clear_outputs
      (fun _ => some { cells := [{ cellType := .code, source := [],
                                   outputs := [['o']], executionCount := some 1 }] })
      (.single "p") =
      [("success", RVal.bool true), ("notebooks_processed", RVal.nat 1)] :=
  C9_clear_outputs_count.1
    (fun _ => some { cells := [{ cellType := .code, source := [],
                                 outputs := [['o']], executionCount := some 1 }] })
    (.single "p")
    [{ cells := [{ cellType := .code, source := [] }] }] rfl

/-- C10: whenever the operation name is accepted, `ipynb_apply_to_notebooks`
returns `success: True` (even if every per-path result is a failure) and
counts with `successful + failed` equal to the number of entries of the
per-path results map. -/
theorem C10_apply_results_accounting :
    ∀ (fs : FS) (paths : List String) (op : String),
      validOperation op = true →
      ∃ (results : List (String × Bool)) (s f : Nat),
        ipynb_apply_to_notebooks fs paths op =
          [("success", RVal.bool true), ("results", RVal.pathResults results),
           ("successful", RVal.nat s), ("failed", RVal.nat f)]
        ∧ s + f = results.length := by
  intro fs paths op hop
  refine ⟨paths.map (fun p => (p, (fs p).isSome)),
    (paths.map (fun p => (p, (fs p).isSome))).countP (fun pr => pr.2 = true),
    (paths.map (fun p => (p, (fs p).isSome))).length -
      (paths.map (fun p => (p, (fs p).isSome))).countP (fun pr => pr.2 = true),
    ?_, ?_⟩
  · unfold ipynb_apply_to_notebooks apply_operation_to_notebooks
    rw [if_pos hop]
  · have hle : (paths.map (fun p => (p, (fs p).isSome))).countP
        (fun pr => pr.2 = true)
        ≤ (paths.map (fun p => (p, (fs p).isSome))).length :=
      List.countP_le_length _
    omega

/-- C10 witness: with both target files missing every per-path result is a
failure, yet the call reports `success: True` with `0 + 2 = 2` entries. -/
theorem C10_apply_results_witness :
    ipynb_apply_to_notebooks (fun _ => none) ["a", "b"] "clear_outputs" =
      [("success", RVal.bool true),
       ("results", RVal.pathResults [("a", false), ("b", false)]),
       ("successful", RVal.nat 0), ("failed", RVal.nat 2)]
  ∧ 0 + 2 = [("a", false), ("b", false)].length := by
  obtain ⟨results, s, f, heq, hacc⟩ :=
    C10_apply_results_accounting (fun _ => none) ["a", "b"] "clear_outputs" rfl
  exact ⟨by rfl, by rfl⟩
